import Mathlib

/-!
Verification of the WebAssembly-to-threaded-bytecode translator
(`binary-reader-interpreter.cc`): a shallow embedding of the translator
state and its event callbacks, with theorems settling the frozen claims
about fixup resolution, drop/keep accounting, emission byte layouts, the
checking of imports, and deferred segment effects.
-/

namespace WabtInterp

/-- Value types of the WebAssembly MVP (`Type` in the source). -/
inductive ValueType where
  | i32
  | i64
  | f32
  | f64
  | void
  | any
deriving DecidableEq

/-- Interpreter opcodes (from `interpreter::Opcode`); only the byte identity
matters to the claims, so opcode bytes are kept symbolic. -/
inductive IOpcode where
  | Drop
  | DropKeep
  | Br
  | BrUnless
  | BrTable
  | Data
  | Return
  | Alloca
  | Call
  | CallHost
  | CallIndirect
  | GetLocal
  | SetLocal
  | TeeLocal
  | GetGlobal
  | SetGlobal
  | I32Const
  | I64Const
  | F32Const
  | F64Const
  | Select
  | Unreachable
  | CurrentMemory
  | GrowMemory
deriving DecidableEq

/-- One byte of the emitted istream: either an opcode byte or a data byte
(an immediate operand byte, value in 0..255). -/
inductive IByte where
  | op (o : IOpcode)
  | data (b : Nat)
deriving DecidableEq

/-- C++ size_t subtraction (wraps modulo 2^64). -/
def wsub64 (a b : Nat) : Nat :=
  (a + (18446744073709551616 - b % 18446744073709551616)) % 18446744073709551616

/-- C++ uint32_t (Index) subtraction (wraps modulo 2^32). -/
def wsub32 (a b : Nat) : Nat :=
  (a + (4294967296 - b % 4294967296)) % 4294967296

/-- Truncation to uint32, as happens when a size_t expression is assigned
to an `Index`/`IstreamOffset`/`uint32_t` variable. -/
def mod32 (a : Nat) : Nat := a % 4294967296

/-- The sentinel istream offset `kInvalidIstreamOffset` (UINT32_MAX). -/
def kInvalidIstreamOffset : Nat := 4294967295

/-- The sentinel index `kInvalidIndex` (UINT32_MAX). -/
def kInvalidIndex : Nat := 4294967295

/-- Little-endian 4-byte encoding of a 32-bit value, as `EmitI32` writes it. -/
def le32Bytes (v : Nat) : List IByte :=
  [IByte.data (v % 256), IByte.data (v / 256 % 256),
   IByte.data (v / 65536 % 256), IByte.data (v / 16777216 % 256)]

/-- A label on the reader's label stack (struct `Label`). -/
structure Label where
  offset : Nat
  fixup_offset : Nat
deriving DecidableEq

/-- Label kinds reported by the external type checker (`LabelType`). -/
inductive LabelType where
  | func
  | block
  | loop
  | if_
  | else_
deriving DecidableEq

/-- A label record of the external type checker (`TypeCheckerLabel`):
its kind, its signature, and the type-stack height at its creation. -/
structure TCLabel where
  label_type : LabelType
  sig : List ValueType
  type_stack_limit : Nat
deriving DecidableEq

/-- Modelled from the spec: the external type checker state (`TypeChecker`
from `type-checker.h`, not part of this repository). It carries the type
stack, a stack of label records, and the unreachable flag reported by
`typechecker_is_unreachable`. -/
structure TypeChecker where
  type_stack : List ValueType
  label_stack : List TCLabel
  unreachable : Bool
deriving DecidableEq

/-- Modelled from the spec: `typechecker_get_label(depth)` returns the label
record at `depth` (0 = innermost), failing when `depth` is out of range. -/
def tcGetLabel (tc : TypeChecker) (depth : Nat) : Option TCLabel :=
  if depth < tc.label_stack.length then
    tc.label_stack[tc.label_stack.length - 1 - depth]?
  else none

/-- Modelled from the spec: `typechecker_is_unreachable`. -/
def tcIsUnreachable (tc : TypeChecker) : Bool := tc.unreachable

/-- Modelled from the spec: `typechecker_begin_function(result_types)`
resets the checker for a fresh function body, pushing the implicit
function label. -/
def tcBeginFunction (results : List ValueType) : TypeChecker :=
  { type_stack := [], label_stack := [⟨LabelType.func, results, 0⟩], unreachable := false }

/-- Modelled from the spec: `typechecker_end_function` closes the implicit
function label. -/
def tcEndFunction (tc : TypeChecker) : TypeChecker :=
  { tc with label_stack := tc.label_stack.dropLast }

/-- Modelled from the spec: `typechecker_on_return` marks the code after an
explicit return unreachable. -/
def tcOnReturn (tc : TypeChecker) : TypeChecker :=
  { tc with unreachable := true }

/-- Modelled from the spec: `typechecker_on_get_local` pushes the local's
type onto the type stack. -/
def tcOnGetLocal (tc : TypeChecker) (t : ValueType) : TypeChecker :=
  { tc with type_stack := tc.type_stack ++ [t] }

/-- Modelled from the spec: `typechecker_on_set_local` pops one entry from
the type stack. -/
def tcOnSetLocal (tc : TypeChecker) (_t : ValueType) : TypeChecker :=
  { tc with type_stack := tc.type_stack.dropLast }

/-- Modelled from the spec: for `tee_local` the top count is unchanged. -/
def tcOnTeeLocal (tc : TypeChecker) (_t : ValueType) : TypeChecker :=
  tc

/-- Modelled from the spec: `typechecker_on_call` consumes the parameter
types and produces the result types. -/
def tcOnCall (tc : TypeChecker) (params results : List ValueType) : TypeChecker :=
  { tc with type_stack :=
      tc.type_stack.take (tc.type_stack.length - params.length) ++ results }

/-- A function signature (`FuncSignature`). -/
structure FuncSig where
  param_types : List ValueType
  result_types : List ValueType
deriving DecidableEq

/-- A defined function (`DefinedFunc`): env-global signature index, istream
entry offset (sentinel until its body begins), local counts, and the
concatenated parameter-and-local type sequence. -/
structure DefinedFunc where
  sig_index : Nat
  offset : Nat
  local_decl_count : Nat
  local_count : Nat
  param_and_local_types : List ValueType
deriving DecidableEq

/-- An environment function: defined in this module or a host function
(`HostFunc` keeps only its signature index here). -/
inductive Func where
  | defined (f : DefinedFunc)
  | host (sig_index : Nat)
deriving DecidableEq

/-- The signature index of a function, defined or host. -/
def Func.sigIndex : Func → Nat
  | .defined f => f.sig_index
  | .host s => s

/-- A typed constant value (`TypedValue`): its type tag and raw payload. -/
structure TypedValue where
  type : ValueType
  value : Nat
deriving DecidableEq

/-- An environment global (`Global`). -/
structure Global where
  typed_value : TypedValue
  mutable_ : Bool
deriving DecidableEq

/-- Resizable limits (`Limits`). -/
structure Limits where
  initial : Nat
  max : Nat
  has_max : Bool
deriving DecidableEq

/-- An environment table instance (`Table`): limits plus its function-index
array. -/
structure TableInst where
  limits : Limits
  func_indexes : List Nat
deriving DecidableEq

/-- An environment memory instance (`Memory`): page limits plus its data
bytes. -/
structure MemInst where
  page_limits : Limits
  data : List Nat
deriving DecidableEq

/-- External kinds (`ExternalKind`). -/
inductive ExternalKind where
  | func
  | table
  | memory
  | global
deriving DecidableEq

/-- An import record (`Import`, with its per-kind union flattened). -/
structure ImportRec where
  module_name : String
  field_name : String
  kind : ExternalKind
  sig_index : Nat
  limits : Limits
  global_type : ValueType
  global_mutable : Bool
deriving DecidableEq

/-- A module's export table (`exports` plus the `export_bindings` name map,
the latter modelled as an association list from name to export index). -/
structure ModuleRec where
  exports : List (String × ExternalKind × Nat)
  export_bindings : List (String × Nat)
deriving DecidableEq

/-- A deferred data-segment copy (`DataSegmentInfo`): destination address in
the memory's data, the source bytes, and the byte count. -/
structure DataSegmentInfo where
  dst_addr : Nat
  src_data : List Nat
  size : Nat
deriving DecidableEq

/-- Translation errors (each `PrintError` site in the source mapped to a
distinct tag; `assertFail` stands for a violated C++ assert). -/
inductive TranslateError where
  | assertFail
  | typeMismatch
  | dataOutOfBounds
  | alignmentTooLarge
  | initGlobalNotImport
  | initGlobalMutable
  | importLimitsMismatch
  | duplicateExport
  | duplicateTable
  | duplicateMemory
  | hostImportError
  | importKindMismatch
  | importSignatureMismatch
  | invalidLocalIndex
  | typeError
deriving DecidableEq

/-- The translator state: the fields of `BinaryReaderInterpreter` together
with the environment and module pieces it manipulates. `istream` holds the
bytes appended so far, `istream_offset` the write cursor, and `patches` the
log of in-place 4-byte `EmitI32At` writes (offset, value). -/
structure RState where
  label_stack : List Label
  depth_fixups : List (List Nat)
  func_fixups : List (List Nat)
  istream : List IByte
  istream_offset : Nat
  patches : List (Nat × Nat)
  typechecker : TypeChecker
  current_func : DefinedFunc
  sigs : List FuncSig
  funcs : List Func
  globals : List Global
  tables : List TableInst
  memories : List MemInst
  sig_index_mapping : List Nat
  func_index_mapping : List Nat
  global_index_mapping : List Nat
  num_func_imports : Nat
  num_global_imports : Nat
  imports : List ImportRec
  module_table_index : Nat
  module_memory_index : Nat
  module_exports : ModuleRec
  host_import_module : ModuleRec
  is_host_import : Bool
  import_env_index : Nat
  init_expr_value : TypedValue
  elem_segment_infos : List (Nat × Nat)
  data_segment_infos : List DataSegmentInfo
deriving DecidableEq

/-- `EmitData`: append bytes to the istream and advance the write cursor. -/
def EmitData (s : RState) (bytes : List IByte) : RState :=
  { s with istream := s.istream ++ bytes, istream_offset := s.istream_offset + bytes.length }

/-- `EmitOpcode`: write the single opcode byte. -/
def EmitOpcode (s : RState) (opcode : IOpcode) : RState :=
  EmitData s [IByte.op opcode]

/-- `EmitI8`: write one byte. -/
def EmitI8 (s : RState) (value : Nat) : RState :=
  EmitData s [IByte.data (value % 256)]

/-- `EmitI32`: write a 4-byte little-endian value. -/
def EmitI32 (s : RState) (value : Nat) : RState :=
  EmitData s (le32Bytes value)

/-- `EmitI32At`: overwrite 4 bytes at a previously recorded offset without
moving the cursor; recorded in the patch log. -/
def EmitI32At (s : RState) (offset value : Nat) : RState :=
  { s with patches := s.patches ++ [(offset, value)] }

/-- `EmitDropKeep(drop, keep)` (`drop` a uint32, `keep` a uint8): emit
nothing when `drop == 0`; the single `Drop` opcode when `drop == 1` and
`keep == 0`; otherwise `DropKeep`, the 4-byte drop count and the 1-byte
keep count. -/
def EmitDropKeep (s : RState) (drop keep : Nat) : RState :=
  let drop := drop % 4294967296
  let keep := keep % 256
  if 0 < drop then
    if drop = 1 ∧ keep = 0 then EmitOpcode s IOpcode.Drop
    else EmitI8 (EmitI32 (EmitOpcode s IOpcode.DropKeep) drop) keep
  else s

/-- The byte sequence `EmitDropKeep` appends (helper for stating and
proving facts about its istream effect). -/
def dropKeepBytes (drop keep : Nat) : List IByte :=
  let drop := drop % 4294967296
  let keep := keep % 256
  if 0 < drop then
    if drop = 1 ∧ keep = 0 then [IByte.op IOpcode.Drop]
    else IByte.op IOpcode.DropKeep :: (le32Bytes drop ++ [IByte.data keep])
  else []

/-- `GetLabel(depth)`: the label `depth` entries below the top of the
reader's label stack. -/
def GetLabel (s : RState) (depth : Nat) : Option Label :=
  if depth < s.label_stack.length then
    s.label_stack[s.label_stack.length - depth - 1]?
  else none

/-- `PushLabel(offset, fixup_offset)`. -/
def PushLabel (s : RState) (offset fixup_offset : Nat) : RState :=
  { s with label_stack := s.label_stack ++ [⟨offset, fixup_offset⟩] }

/-- `PopLabel`: remove the top label and truncate `depth_fixups` to the new
label-stack length when it is longer. -/
def PopLabel (s : RState) : RState :=
  let ls := s.label_stack.dropLast
  { s with label_stack := ls,
           depth_fixups :=
             if ls.length < s.depth_fixups.length then s.depth_fixups.take ls.length
             else s.depth_fixups }

/-- `AppendFixup(vec, index)`: grow `vec` to hold `index` (padding with
empty lists) and append the given istream offset to `vec[index]`. -/
def appendFixup (v : List (List Nat)) (index offset : Nat) : List (List Nat) :=
  let v2 := if v.length ≤ index then v ++ List.replicate (index + 1 - v.length) [] else v
  v2.set index (v2.getD index [] ++ [offset])

/-- `EmitBrOffset(depth, offset)`: when `offset` is the unresolved sentinel,
record a fixup at absolute depth `label_stack.len − 1 − depth`; then emit
the 4-byte offset. -/
def EmitBrOffset (s : RState) (depth offset : Nat) : RState :=
  let df := appendFixup s.depth_fixups (wsub64 (wsub64 s.label_stack.length 1) depth) s.istream_offset
  let s := if offset = kInvalidIstreamOffset then { s with depth_fixups := df } else s
  EmitI32 s offset

/-- `GetBrDropKeepCount(depth)`: keep the branch target's signature length
(0 for loops); drop the type-stack surplus above the label's limit, or 0 in
unreachable mode. Both results are `Index` (uint32) values. -/
def GetBrDropKeepCount (tc : TypeChecker) (depth : Nat) : Option (Nat × Nat) :=
  match tcGetLabel tc depth with
  | none => none
  | some label =>
    let keep := if label.label_type ≠ LabelType.loop then mod32 label.sig.length else 0
    let drop :=
      if tcIsUnreachable tc then 0
      else mod32 (wsub64 (wsub64 tc.type_stack.length label.type_stack_limit) keep)
    some (drop, keep)

/-- `GetReturnDropKeepCount`: the branch drop/keep counts for the outermost
label, with the current function's parameter-and-local count added to the
drop count. -/
def GetReturnDropKeepCount (s : RState) : Option (Nat × Nat) :=
  match GetBrDropKeepCount s.typechecker (wsub64 s.label_stack.length 1) with
  | none => none
  | some dk => some (mod32 (dk.1 + s.current_func.param_and_local_types.length), dk.2)

/-- `FixupTopLabel`: patch every pending fixup recorded for the top label
depth with the current istream offset, then clear that list. -/
def FixupTopLabel (s : RState) : RState :=
  let offset := s.istream_offset
  let top := wsub64 s.label_stack.length 1
  if s.depth_fixups.length ≤ top then s
  else
    { s with patches := s.patches ++ (s.depth_fixups.getD top []).map (fun f => (f, offset)),
             depth_fixups := s.depth_fixups.set top [] }

/-- `EmitFuncOffset(func, func_index)`: when the callee's entry offset is
still unresolved, record a fixup under its defined index; then emit the
4-byte offset. -/
def EmitFuncOffset (s : RState) (func : DefinedFunc) (func_index : Nat) :
    Except TranslateError RState :=
  if func.offset = kInvalidIstreamOffset then
    if func_index < s.num_func_imports then Except.error TranslateError.assertFail
    else
      let ff := appendFixup s.func_fixups (wsub32 func_index s.num_func_imports) s.istream_offset
      let s := { s with func_fixups := ff }
      Except.ok (EmitI32 s func.offset)
  else Except.ok (EmitI32 s func.offset)

/-- `CheckLocal(local_index)`: the index must be below the current
function's parameter-and-local count. -/
def CheckLocal (s : RState) (local_index : Nat) : Except TranslateError Unit :=
  if s.current_func.param_and_local_types.length ≤ local_index then
    Except.error TranslateError.invalidLocalIndex
  else Except.ok ()

/-- `GetLocalTypeByIndex`. -/
def GetLocalTypeByIndex (func : DefinedFunc) (local_index : Nat) : ValueType :=
  func.param_and_local_types.getD local_index ValueType.any

/-- `TranslateLocalIndex(local_index)` =
`type_stack.len + param_and_local_count − local_index`, truncated to a
uint32 `Index` on return. -/
def TranslateLocalIndex (s : RState) (local_index : Nat) : Nat :=
  mod32 (wsub64 (s.typechecker.type_stack.length +
                 s.current_func.param_and_local_types.length) local_index)

/-- `OnGetLocalExpr`: check the index, translate it before the type checker
pushes, then emit `GetLocal` and the 4-byte translated index. -/
def OnGetLocalExpr (s : RState) (local_index : Nat) : Except TranslateError RState :=
  match CheckLocal s local_index with
  | .error e => .error e
  | .ok _ =>
    let t := GetLocalTypeByIndex s.current_func local_index
    let translated := TranslateLocalIndex s local_index
    let s := { s with typechecker := tcOnGetLocal s.typechecker t }
    .ok (EmitI32 (EmitOpcode s IOpcode.GetLocal) translated)

/-- `OnSetLocalExpr`: check the index, let the type checker pop, then emit
`SetLocal` and the 4-byte translated index (computed after the pop). -/
def OnSetLocalExpr (s : RState) (local_index : Nat) : Except TranslateError RState :=
  match CheckLocal s local_index with
  | .error e => .error e
  | .ok _ =>
    let t := GetLocalTypeByIndex s.current_func local_index
    let s := { s with typechecker := tcOnSetLocal s.typechecker t }
    .ok (EmitI32 (EmitOpcode s IOpcode.SetLocal) (TranslateLocalIndex s local_index))

/-- `OnTeeLocalExpr`: check the index, let the type checker process the
tee, then emit `TeeLocal` and the 4-byte translated index. -/
def OnTeeLocalExpr (s : RState) (local_index : Nat) : Except TranslateError RState :=
  match CheckLocal s local_index with
  | .error e => .error e
  | .ok _ =>
    let t := GetLocalTypeByIndex s.current_func local_index
    let s := { s with typechecker := tcOnTeeLocal s.typechecker t }
    .ok (EmitI32 (EmitOpcode s IOpcode.TeeLocal) (TranslateLocalIndex s local_index))

/-- `OnReturnExpr`: compute the return drop/keep counts, advance the type
checker, then emit the drop/keep lowering followed by `Return`. -/
def OnReturnExpr (s : RState) : Except TranslateError RState :=
  match GetReturnDropKeepCount s with
  | none => .error TranslateError.typeError
  | some dk =>
    let s := { s with typechecker := tcOnReturn s.typechecker }
    .ok (EmitOpcode (EmitDropKeep s dk.1 dk.2) IOpcode.Return)

/-- `BeginFunctionBody(index)`: resolve the defined function, record its
entry offset, reset the per-body label and depth-fixup state, patch every
pending `func_fixups` entry for it with the new offset, seed its
parameter-and-local types, restart the type checker, and push the implicit
function label. -/
def BeginFunctionBody (s : RState) (index : Nat) : Except TranslateError RState :=
  match s.func_index_mapping[index]? with
  | none => .error TranslateError.assertFail
  | some env_index =>
  match s.funcs[env_index]? with
  | none => .error TranslateError.assertFail
  | some (Func.host _) => .error TranslateError.assertFail
  | some (Func.defined func) =>
    if index < s.num_func_imports then .error TranslateError.assertFail
    else
      let sig := s.sigs.getD func.sig_index ⟨[], []⟩
      let func := { func with offset := s.istream_offset, local_decl_count := 0,
                              local_count := 0,
                              param_and_local_types :=
                                func.param_and_local_types ++ sig.param_types }
      let defined_index := wsub32 index s.num_func_imports
      let fixups := s.func_fixups.getD defined_index []
      let s := { s with
        funcs := s.funcs.set env_index (Func.defined func),
        current_func := func,
        depth_fixups := [],
        label_stack := [],
        patches := s.patches ++ fixups.map (fun f => (f, func.offset)),
        typechecker := tcBeginFunction sig.result_types }
      .ok (PushLabel s kInvalidIstreamOffset kInvalidIstreamOffset)

/-- `EndFunctionBody`: resolve the top label's fixups, compute the return
drop/keep counts, close the type checker's function scope, emit the
drop/keep lowering and `Return`, and pop the implicit label. -/
def EndFunctionBody (s : RState) : Except TranslateError RState :=
  let s := FixupTopLabel s
  match GetReturnDropKeepCount s with
  | none => .error TranslateError.typeError
  | some dk =>
    let s := { s with typechecker := tcEndFunction s.typechecker }
    .ok (PopLabel (EmitOpcode (EmitDropKeep s dk.1 dk.2) IOpcode.Return))

/-- `OnCallExpr(func_index)`: type-check the call, then emit `CallHost`
plus the env index for host callees, or `Call` plus the callee's entry
offset (with a pending fixup when unresolved) for defined callees. -/
def OnCallExpr (s : RState) (func_index : Nat) : Except TranslateError RState :=
  match s.func_index_mapping[func_index]? with
  | none => .error TranslateError.assertFail
  | some env_index =>
  match s.funcs[env_index]? with
  | none => .error TranslateError.assertFail
  | some f =>
    let sig := s.sigs.getD f.sigIndex ⟨[], []⟩
    let s := { s with typechecker := tcOnCall s.typechecker sig.param_types sig.result_types }
    match f with
    | Func.host _ => .ok (EmitI32 (EmitOpcode s IOpcode.CallHost) env_index)
    | Func.defined df => EmitFuncOffset (EmitOpcode s IOpcode.Call) df func_index

/-- `EndModule`: commit the deferred element-segment writes and
data-segment copies onto the environment's tables and memories. -/
def storeBytes (mem : List Nat) (addr : Nat) (bytes : List Nat) : List Nat :=
  mem.take addr ++ bytes ++ mem.drop (addr + bytes.length)

/-- One element-segment commit: write the function index into the module's
table slot. -/
def commitElem (tables : List TableInst) (ti : Nat) (info : Nat × Nat) : List TableInst :=
  match tables[ti]? with
  | none => tables
  | some t => tables.set ti { t with func_indexes := t.func_indexes.set info.1 info.2 }

/-- One data-segment commit: copy the recorded bytes into the module's
memory. -/
def commitData (mems : List MemInst) (mi : Nat) (info : DataSegmentInfo) : List MemInst :=
  match mems[mi]? with
  | none => mems
  | some m => mems.set mi { m with data := storeBytes m.data info.dst_addr (info.src_data.take info.size) }

/-- `EndModule` applies every deferred effect; it touches nothing else. -/
def EndModule (s : RState) : RState :=
  { s with
    tables := s.elem_segment_infos.foldl (fun t info => commitElem t s.module_table_index info) s.tables,
    memories := s.data_segment_infos.foldl (fun m info => commitData m s.module_memory_index info) s.memories }

/-- `OnDataSegmentData(index, src_data, size)`: the init value must be i32;
the segment `[address, address + size)` must fit the memory; a non-empty
segment records a deferred copy. -/
def OnDataSegmentData (s : RState) (src_data : List Nat) (size : Nat) :
    Except TranslateError RState :=
  match s.memories[s.module_memory_index]? with
  | none => .error TranslateError.assertFail
  | some memory =>
    if s.init_expr_value.type ≠ ValueType.i32 then .error TranslateError.typeMismatch
    else
      let address := s.init_expr_value.value % 4294967296
      let end_address := address + size
      if memory.data.length < end_address then .error TranslateError.dataOutOfBounds
      else if 0 < size then
        .ok { s with data_segment_infos := s.data_segment_infos ++ [⟨address, src_data, size⟩] }
      else .ok s

/-- `CheckAlign(alignment_log2, natural_alignment)`: fail when the shift
amount reaches 32 or the alignment exceeds the natural alignment. -/
def CheckAlign (alignment_log2 natural_alignment : Nat) : Except TranslateError Unit :=
  if 32 ≤ alignment_log2 then .error TranslateError.alignmentTooLarge
  else if natural_alignment < 2 ^ alignment_log2 then .error TranslateError.alignmentTooLarge
  else .ok ()

/-- The WebAssembly MVP load and store opcodes. -/
inductive MemOp where
  | i32_load
  | i64_load
  | f32_load
  | f64_load
  | i32_load8_s
  | i32_load8_u
  | i32_load16_s
  | i32_load16_u
  | i64_load8_s
  | i64_load8_u
  | i64_load16_s
  | i64_load16_u
  | i64_load32_s
  | i64_load32_u
  | i32_store
  | i64_store
  | f32_store
  | f64_store
  | i32_store8
  | i32_store16
  | i64_store8
  | i64_store16
  | i64_store32
deriving DecidableEq

/-- Modelled from the spec: `get_opcode_memory_size` (the natural alignment
of each load/store opcode, i.e. its access width in bytes); the function
itself lives outside this repository. -/
def get_opcode_memory_size : MemOp → Nat
  | .i32_load => 4
  | .i64_load => 8
  | .f32_load => 4
  | .f64_load => 8
  | .i32_load8_s => 1
  | .i32_load8_u => 1
  | .i32_load16_s => 2
  | .i32_load16_u => 2
  | .i64_load8_s => 1
  | .i64_load8_u => 1
  | .i64_load16_s => 2
  | .i64_load16_u => 2
  | .i64_load32_s => 4
  | .i64_load32_u => 4
  | .i32_store => 4
  | .i64_store => 8
  | .f32_store => 4
  | .f64_store => 8
  | .i32_store8 => 1
  | .i32_store16 => 2
  | .i64_store8 => 1
  | .i64_store16 => 2
  | .i64_store32 => 4

/-- `TranslateGlobalIndexToEnv` (no bounds assertion in the source). -/
def TranslateGlobalIndexToEnv (s : RState) (global_index : Nat) : Nat :=
  s.global_index_mapping.getD global_index 0

/-- `GetGlobalByModuleIndex`. -/
def GetGlobalByModuleIndex (s : RState) (global_index : Nat) : Global :=
  s.globals.getD (TranslateGlobalIndexToEnv s global_index) ⟨⟨ValueType.any, 0⟩, false⟩

/-- `OnInitExprGetGlobalExpr(index, global_index)`: the referenced global
must be an imported, immutable global; its typed value becomes the current
init-expression value. -/
def OnInitExprGetGlobalExpr (s : RState) (global_index : Nat) :
    Except TranslateError RState :=
  if s.num_global_imports ≤ global_index then .error TranslateError.initGlobalNotImport
  else
    let ref := GetGlobalByModuleIndex s global_index
    if ref.mutable_ then .error TranslateError.initGlobalMutable
    else .ok { s with init_expr_value := ref.typed_value }

/-- `CheckImportLimits(declared, actual)`: the actual initial size must
reach the declared one; a declared max requires an actual max no larger. -/
def CheckImportLimits (declared actual : Limits) : Except TranslateError Unit :=
  if actual.initial < declared.initial then .error TranslateError.importLimitsMismatch
  else if declared.has_max then
    if actual.has_max = false then .error TranslateError.importLimitsMismatch
    else if declared.max < actual.max then .error TranslateError.importLimitsMismatch
    else .ok ()
  else .ok ()

/-- `CheckImportKind`. -/
def CheckImportKind (imp : ImportRec) (expected : ExternalKind) : Except TranslateError Unit :=
  if imp.kind ≠ expected then .error TranslateError.importKindMismatch else .ok ()

/-- `AppendExport(module, kind, item_index, name)`: reject a duplicate name,
else append the export and its name binding. -/
def AppendExport (m : ModuleRec) (kind : ExternalKind) (item_index : Nat) (name : String) :
    Except TranslateError ModuleRec :=
  if (m.export_bindings.find? (fun b => b.1 == name)).isSome then
    .error TranslateError.duplicateExport
  else
    .ok { m with exports := m.exports ++ [(name, kind, item_index)],
                 export_bindings := m.export_bindings ++ [(name, m.exports.length)] }

/-- Modelled from the spec: `func_signatures_are_equal` (external) compares
the two signatures in the environment. -/
def func_signatures_are_equal (s : RState) (a b : Nat) : Bool :=
  s.sigs.getD a ⟨[], []⟩ = s.sigs.getD b ⟨[], []⟩

/-- `OnImportFunc`: for a host import, allocate the host function, run the
delegate (its success is the `delegateOk` parameter), auto-export it on the
host module with the append result discarded; otherwise check the export's
kind and signature. Either way the resolved env index joins
`func_index_mapping` and the import counter advances. -/
def OnImportFunc (s : RState) (import_index func_index sig_index : Nat)
    (delegateOk : Bool) : Except TranslateError RState :=
  match s.imports[import_index]? with
  | none => .error TranslateError.assertFail
  | some imp =>
  match s.sig_index_mapping[sig_index]? with
  | none => .error TranslateError.assertFail
  | some env_sig =>
    let imp := { imp with sig_index := env_sig }
    let s := { s with imports := s.imports.set import_index imp }
    if s.is_host_import then
      let s := { s with funcs := s.funcs ++ [Func.host env_sig] }
      if delegateOk = false then .error TranslateError.hostImportError
      else
        let func_env_index := s.funcs.length - 1
        let hm :=
          match AppendExport s.host_import_module ExternalKind.func func_env_index
              imp.field_name with
          | .ok m => m
          | .error _ => s.host_import_module
        .ok { s with host_import_module := hm,
                     func_index_mapping := s.func_index_mapping ++ [func_env_index],
                     num_func_imports := s.num_func_imports + 1 }
    else
      match CheckImportKind imp ExternalKind.func with
      | .error e => .error e
      | .ok _ =>
      match s.funcs[s.import_env_index]? with
      | none => .error TranslateError.assertFail
      | some func =>
        if func_signatures_are_equal s env_sig func.sigIndex = false then
          .error TranslateError.importSignatureMismatch
        else
          .ok { s with func_index_mapping := s.func_index_mapping ++ [s.import_env_index],
                       num_func_imports := s.num_func_imports + 1 }

/-- `OnImportTable`: only one table per module; for a host import, allocate
the table, run the delegate (which installs `installed` limits), check
limits compatibility, auto-export with the append result discarded;
otherwise check kind and limits against the existing env table. -/
def OnImportTable (s : RState) (import_index : Nat) (elem_limits : Limits)
    (delegateOk : Bool) (installed : Limits) : Except TranslateError RState :=
  if s.module_table_index ≠ kInvalidIndex then .error TranslateError.duplicateTable
  else match s.imports[import_index]? with
  | none => .error TranslateError.assertFail
  | some imp =>
    if s.is_host_import then
      let fresh : TableInst := ⟨elem_limits, List.replicate elem_limits.initial kInvalidIndex⟩
      let s := { s with tables := s.tables ++ [fresh] }
      if delegateOk = false then .error TranslateError.hostImportError
      else
        let ti := s.tables.length - 1
        let installedTable : TableInst := ⟨installed, List.replicate installed.initial kInvalidIndex⟩
        let s := { s with tables := s.tables.set ti installedTable }
        match CheckImportLimits elem_limits installed with
        | .error e => .error e
        | .ok _ =>
          let hm :=
            match AppendExport s.host_import_module ExternalKind.table ti imp.field_name with
            | .ok m => m
            | .error _ => s.host_import_module
          .ok { s with module_table_index := ti, host_import_module := hm }
    else
      match CheckImportKind imp ExternalKind.table with
      | .error e => .error e
      | .ok _ =>
      match s.tables[s.import_env_index]? with
      | none => .error TranslateError.assertFail
      | some table =>
      match CheckImportLimits elem_limits table.limits with
      | .error e => .error e
      | .ok _ =>
        .ok { s with imports := s.imports.set import_index { imp with limits := elem_limits },
                     module_table_index := s.import_env_index }

/-- `OnImportMemory`: only one memory per module; the host path mirrors
`OnImportTable` with the delegate installing `installed`. -/
def OnImportMemory (s : RState) (import_index : Nat) (page_limits : Limits)
    (delegateOk : Bool) (installed : MemInst) : Except TranslateError RState :=
  if s.module_memory_index ≠ kInvalidIndex then .error TranslateError.duplicateMemory
  else match s.imports[import_index]? with
  | none => .error TranslateError.assertFail
  | some imp =>
    if s.is_host_import then
      let fresh : MemInst := ⟨⟨0, 0, false⟩, []⟩
      let s := { s with memories := s.memories ++ [fresh] }
      if delegateOk = false then .error TranslateError.hostImportError
      else
        let mi := s.memories.length - 1
        let s := { s with memories := s.memories.set mi installed }
        match CheckImportLimits page_limits installed.page_limits with
        | .error e => .error e
        | .ok _ =>
          let hm :=
            match AppendExport s.host_import_module ExternalKind.memory mi imp.field_name with
            | .ok m => m
            | .error _ => s.host_import_module
          .ok { s with module_memory_index := mi, host_import_module := hm }
    else
      match CheckImportKind imp ExternalKind.memory with
      | .error e => .error e
      | .ok _ =>
      match s.memories[s.import_env_index]? with
      | none => .error TranslateError.assertFail
      | some memory =>
      match CheckImportLimits page_limits memory.page_limits with
      | .error e => .error e
      | .ok _ =>
        .ok { s with imports := s.imports.set import_index { imp with limits := page_limits },
                     module_memory_index := s.import_env_index }

/-- `OnImportGlobal`: the host path allocates the global, runs the delegate
(which installs `installed`), and auto-exports with the append result
discarded; the non-host path only checks the kind (type and mutability are
a TODO in the source). Either way the mapping and counter advance. -/
def OnImportGlobal (s : RState) (import_index : Nat) (gtype : ValueType) (gmut : Bool)
    (delegateOk : Bool) (installed : Global) : Except TranslateError RState :=
  match s.imports[import_index]? with
  | none => .error TranslateError.assertFail
  | some imp =>
    if s.is_host_import then
      let fresh : Global := ⟨⟨gtype, 0⟩, gmut⟩
      let s := { s with globals := s.globals ++ [fresh] }
      if delegateOk = false then .error TranslateError.hostImportError
      else
        let gi := s.globals.length - 1
        let s := { s with globals := s.globals.set gi installed }
        let hm :=
          match AppendExport s.host_import_module ExternalKind.global gi imp.field_name with
          | .ok m => m
          | .error _ => s.host_import_module
        .ok { s with host_import_module := hm,
                     global_index_mapping := s.global_index_mapping ++ [gi],
                     num_global_imports := s.num_global_imports + 1 }
    else
      match CheckImportKind imp ExternalKind.global with
      | .error e => .error e
      | .ok _ =>
        .ok { s with
          imports := s.imports.set import_index
            { imp with global_type := gtype, global_mutable := gmut },
          global_index_mapping := s.global_index_mapping ++ [s.import_env_index],
          num_global_imports := s.num_global_imports + 1 }

/-- Events of the label-and-fixup engine: the operations of the source that
touch `label_stack`, `depth_fixups` or `func_fixups` during a module. -/
inductive FEvent where
  | pushLabel (offset fixup : Nat)
  | popLabel
  | fixupTop
  | brOffset (depth offset : Nat)
  | beginBody (index : Nat)
  | endBody
  | callExpr (index : Nat)
deriving DecidableEq

/-- One step of the engine: callbacks that fail leave the state unchanged
(the translation would abort there). -/
def stepF (s : RState) : FEvent → RState
  | .pushLabel off fix => PushLabel s off fix
  | .popLabel => PopLabel s
  | .fixupTop => FixupTopLabel s
  | .brOffset depth off => EmitBrOffset s depth off
  | .beginBody idx => match BeginFunctionBody s idx with | .ok t => t | .error _ => s
  | .endBody => match EndFunctionBody s with | .ok t => t | .error _ => s
  | .callExpr idx => match OnCallExpr s idx with | .ok t => t | .error _ => s

/-- Run a sequence of engine events. -/
def runF (s : RState) (evs : List FEvent) : RState := evs.foldl stepF s

/-- Per-event side condition: a branch to an unresolved target must name a
depth inside the label stack (guaranteed by the type checker in the
source). -/
def eventPre (s : RState) : FEvent → Prop
  | .brOffset depth offset =>
      offset = kInvalidIstreamOffset →
        (depth < s.label_stack.length ∧ s.label_stack.length < 18446744073709551616)
  | _ => True

/-- A run whose events all satisfy their side conditions at the state where
they fire. -/
def ValidRun : RState → List FEvent → Prop
  | _, [] => True
  | s, e :: evs => eventPre s e ∧ ValidRun (stepF s e) evs

/-- The engine invariant: `depth_fixups` never outgrows the label stack. -/
def fixupInv (s : RState) : Prop :=
  s.depth_fixups.length ≤ s.label_stack.length

/-- A translator state at the start of a module (fresh reader over an empty
environment). -/
def initState : RState where
  label_stack := []
  depth_fixups := []
  func_fixups := []
  istream := []
  istream_offset := 0
  patches := []
  typechecker := ⟨[], [], false⟩
  current_func := ⟨0, kInvalidIstreamOffset, 0, 0, []⟩
  sigs := []
  funcs := []
  globals := []
  tables := []
  memories := []
  sig_index_mapping := []
  func_index_mapping := []
  global_index_mapping := []
  num_func_imports := 0
  num_global_imports := 0
  imports := []
  module_table_index := kInvalidIndex
  module_memory_index := kInvalidIndex
  module_exports := ⟨[], []⟩
  host_import_module := ⟨[], []⟩
  is_host_import := false
  import_env_index := 0
  init_expr_value := ⟨ValueType.void, 0⟩
  elem_segment_infos := []
  data_segment_infos := []

/-- A module-local defined function whose body has not begun (entry offset
still unresolved). -/
def fwdFunc : DefinedFunc := ⟨0, kInvalidIstreamOffset, 0, 0, []⟩

/-- A state right after the function section of a one-function module: one
nullary signature, one declared (not yet compiled) function, and the
`func_fixups` slot the source allocates in `OnFunctionCount`. -/
def oneFuncState : RState :=
  { initState with
    sigs := [⟨[], []⟩],
    funcs := [Func.defined fwdFunc],
    func_index_mapping := [0],
    func_fixups := [[]] }

/-- A state inside a function body with one i32 parameter and one value on
the type stack. -/
def localState : RState :=
  { initState with
    current_func := ⟨0, 0, 0, 0, [ValueType.i32]⟩,
    typechecker := ⟨[ValueType.i32], [⟨LabelType.func, [], 0⟩], false⟩,
    label_stack := [⟨kInvalidIstreamOffset, kInvalidIstreamOffset⟩] }

/-- A state with one 4-byte memory and an i32 init value of 2. -/
def dataSegState : RState :=
  { initState with
    memories := [⟨⟨1, 1, true⟩, List.replicate 4 0⟩],
    module_memory_index := 0,
    init_expr_value := ⟨ValueType.i32, 2⟩ }

/-- A state with one imported immutable i32 global. -/
def globalState : RState :=
  { initState with
    num_global_imports := 1,
    global_index_mapping := [0],
    globals := [⟨⟨ValueType.i32, 42⟩, false⟩] }

/-- A state processing a host import whose host module already exports the
imported field name. -/
def hostDupState : RState :=
  { initState with
    is_host_import := true,
    imports := [⟨"m", "f", ExternalKind.func, 0, ⟨0, 0, false⟩, ValueType.i32, false⟩],
    sig_index_mapping := [0],
    host_import_module := ⟨[("f", ExternalKind.func, 0)], [("f", 0)]⟩ }

theorem wsub64_eq (a b : Nat) (hb : b ≤ a) (ha : a < 18446744073709551616) :
    wsub64 a b = a - b := by
  unfold wsub64
  omega

theorem wsub32_eq (a b : Nat) (hb : b ≤ a) (ha : a < 4294967296) :
    wsub32 a b = a - b := by
  unfold wsub32
  omega

theorem mod32_eq (a : Nat) (h : a < 4294967296) : mod32 a = a :=
  Nat.mod_eq_of_lt h

theorem appendFixup_length (v : List (List Nat)) (i off : Nat) :
    (appendFixup v i off).length = max v.length (i + 1) := by
  unfold appendFixup
  by_cases h : v.length ≤ i
  · simp [h]
    omega
  · simp [h]
    omega

theorem EmitDropKeep_istream (s : RState) (drop keep : Nat) :
    (EmitDropKeep s drop keep).istream = s.istream ++ dropKeepBytes drop keep := by
  unfold EmitDropKeep dropKeepBytes EmitOpcode EmitI32 EmitI8 EmitData
  by_cases h1 : 0 < drop % 4294967296
  · by_cases h2 : drop % 4294967296 = 1 ∧ keep % 256 = 0
    · simp [h1, h2]
    · simp [h1, h2, le32Bytes]
  · simp [h1]

/-- Claim C4: for `keep ≤ 1` and `drop ≠ UINT32_MAX`, `EmitDropKeep`
appends nothing when `drop = 0`; the single `Drop` opcode byte when
`drop = 1` and `keep = 0`; otherwise the `DropKeep` opcode byte, the
4-byte little-endian drop count, and the 1-byte keep count. -/
theorem claim_C4_theorem (s : RState) (drop keep : Nat)
    (hkeep : keep ≤ 1) (hlt : drop < 4294967296) (hmax : drop ≠ 4294967295) :
    (drop = 0 → EmitDropKeep s drop keep = s)
    ∧ (drop = 1 ∧ keep = 0 →
        (EmitDropKeep s drop keep).istream = s.istream ++ [IByte.op IOpcode.Drop])
    ∧ (0 < drop → ¬(drop = 1 ∧ keep = 0) →
        (EmitDropKeep s drop keep).istream
          = s.istream ++ [IByte.op IOpcode.DropKeep] ++ le32Bytes drop ++ [IByte.data keep]) := by
  have hdm : drop % 4294967296 = drop := Nat.mod_eq_of_lt hlt
  have hkm : keep % 256 = keep := Nat.mod_eq_of_lt (by omega)
  refine ⟨?_, ?_, ?_⟩
  · intro h0
    subst h0
    simp [EmitDropKeep]
  · intro h
    rw [EmitDropKeep_istream]
    unfold dropKeepBytes
    simp [hdm, hkm, h.1, h.2]
  · intro h0 hne
    rw [EmitDropKeep_istream]
    unfold dropKeepBytes
    rw [hdm, hkm]
    rw [if_pos h0, if_neg hne]
    simp

/-- Witness for claim C4 at `drop = 2`, `keep = 1`. -/
theorem claim_C4_witness :
    (EmitDropKeep initState 2 1).istream
      = initState.istream ++ [IByte.op IOpcode.DropKeep] ++ le32Bytes 2 ++ [IByte.data 1] :=
  (claim_C4_theorem initState 2 1 (by decide) (by decide) (by decide)).2.2
    (by decide) (by decide)

/-- Claim C7: the alignment check fails with `AlignmentTooLarge` exactly
when `alignment_log2 ≥ 32` or `1 << alignment_log2` exceeds the opcode's
natural alignment; an alignment exactly equal to the natural alignment is
accepted. -/
theorem claim_C7_theorem (alignment_log2 natural_alignment : Nat) (op : MemOp) :
    (CheckAlign alignment_log2 natural_alignment
        = Except.error TranslateError.alignmentTooLarge
      ↔ (32 ≤ alignment_log2 ∨ natural_alignment < 2 ^ alignment_log2))
    ∧ (2 ^ alignment_log2 = get_opcode_memory_size op →
        CheckAlign alignment_log2 (get_opcode_memory_size op) = Except.ok ()) := by
  constructor
  · unfold CheckAlign
    by_cases h1 : 32 ≤ alignment_log2
    · simp [h1]
    · by_cases h2 : natural_alignment < 2 ^ alignment_log2
      · simp [h1, h2]
      · simp [h1, h2]
  · intro heq
    have hsize : get_opcode_memory_size op ≤ 8 := by cases op <;> decide
    have hlog : alignment_log2 < 32 := by
      by_contra hc
      have h32 : (2 : Nat) ^ 32 ≤ 2 ^ alignment_log2 :=
        Nat.pow_le_pow_right (by omega) (by omega)
      rw [heq] at h32
      norm_num at h32
      omega
    unfold CheckAlign
    rw [if_neg (by omega)]
    rw [if_neg (by omega)]

/-- Witness for claim C7: `i32.load` with alignment 4 (log2 = 2). -/
theorem claim_C7_witness :
    CheckAlign 2 (get_opcode_memory_size MemOp.i32_load) = Except.ok () :=
  (claim_C7_theorem 2 4 MemOp.i32_load).2 (by decide)

/-- Claim C9: `CheckImportLimits(declared, actual)` fails exactly when the
actual initial size is below the declared one, or the declared limits have
a max and the actual do not, or both have a max and the actual max exceeds
the declared max; in every other case it succeeds. -/
theorem claim_C9_theorem (declared actual : Limits) :
    (CheckImportLimits declared actual = Except.error TranslateError.importLimitsMismatch
      ↔ (actual.initial < declared.initial
          ∨ (declared.has_max = true ∧ actual.has_max = false)
          ∨ (declared.has_max = true ∧ actual.has_max = true ∧ declared.max < actual.max)))
    ∧ (CheckImportLimits declared actual = Except.ok ()
        ∨ CheckImportLimits declared actual = Except.error TranslateError.importLimitsMismatch) := by
  unfold CheckImportLimits
  by_cases h1 : actual.initial < declared.initial
  · simp [h1]
  · cases h2 : declared.has_max
    · simp [h1, h2]
    · cases h3 : actual.has_max
      · simp [h1, h2, h3]
      · by_cases h4 : declared.max < actual.max
        · simp [h1, h2, h3, h4]
        · simp [h1, h2, h3, h4]

/-- Claim C2: for a branch to the label at `depth`, the keep count is 0 for
a Loop label and the label's signature length otherwise, and the drop count
is 0 in unreachable mode and
`type_stack.len − label.type_stack_limit − keep_count` otherwise. -/
theorem claim_C2_theorem (tc : TypeChecker) (depth : Nat) (label : TCLabel)
    (hlabel : tcGetLabel tc depth = some label)
    (hsig : label.sig.length < 4294967296)
    (hts : tc.type_stack.length < 4294967296)
    (hlim : tc.unreachable = false →
      label.type_stack_limit
        + (if label.label_type = LabelType.loop then 0 else label.sig.length)
        ≤ tc.type_stack.length) :
    GetBrDropKeepCount tc depth = some
      ((if tc.unreachable then 0
        else tc.type_stack.length - label.type_stack_limit
          - (if label.label_type = LabelType.loop then 0 else label.sig.length)),
       (if label.label_type = LabelType.loop then 0 else label.sig.length)) := by
  have hkeep : (if label.label_type ≠ LabelType.loop then mod32 label.sig.length else 0)
      = (if label.label_type = LabelType.loop then 0 else label.sig.length) := by
    by_cases hl : label.label_type = LabelType.loop
    · simp [hl]
    · simp [hl, mod32_eq _ hsig]
  simp only [GetBrDropKeepCount, tcIsUnreachable, hlabel, hkeep]
  cases hu : tc.unreachable
  · have hl2 := hlim hu
    simp only [Option.some.injEq, Prod.mk.injEq,
      if_neg (by simp : ¬ (false = true))]
    refine ⟨?_, trivial⟩
    unfold mod32 wsub64
    omega
  · simp

/-- Witness for claim C2: a branch to a Block label with signature `[i32]`
from a reachable state with one stacked value. -/
theorem claim_C2_witness :
    GetBrDropKeepCount ⟨[ValueType.i32], [⟨LabelType.block, [ValueType.i32], 0⟩], false⟩ 0
      = some (0, 1) := by
  have h := claim_C2_theorem
    ⟨[ValueType.i32], [⟨LabelType.block, [ValueType.i32], 0⟩], false⟩ 0
    ⟨LabelType.block, [ValueType.i32], 0⟩
    (by decide) (by decide) (by decide) (by intro _; decide)
  simpa using h

theorem FixupTopLabel_typechecker (s : RState) :
    (FixupTopLabel s).typechecker = s.typechecker := by
  simp only [FixupTopLabel]
  split <;> rfl

theorem FixupTopLabel_label_stack (s : RState) :
    (FixupTopLabel s).label_stack = s.label_stack := by
  simp only [FixupTopLabel]
  split <;> rfl

theorem FixupTopLabel_current_func (s : RState) :
    (FixupTopLabel s).current_func = s.current_func := by
  simp only [FixupTopLabel]
  split <;> rfl

theorem FixupTopLabel_istream (s : RState) :
    (FixupTopLabel s).istream = s.istream := by
  simp only [FixupTopLabel]
  split <;> rfl

theorem GetReturnDropKeepCount_fixupTop (s : RState) :
    GetReturnDropKeepCount (FixupTopLabel s) = GetReturnDropKeepCount s := by
  unfold GetReturnDropKeepCount
  rw [FixupTopLabel_typechecker, FixupTopLabel_label_stack, FixupTopLabel_current_func]

/-- Claim C3: the function-return drop/keep counts are the branch counts
for the outermost label (depth `label_stack.len − 1`) with the current
function's parameter-and-local count added to the drop count; both the
explicit `return` and the end of a function body emit exactly these
counts. -/
theorem claim_C3_theorem (s : RState) (d k : Nat)
    (hne : s.label_stack ≠ [])
    (hlen : s.label_stack.length < 18446744073709551616)
    (hbr : GetBrDropKeepCount s.typechecker (s.label_stack.length - 1) = some (d, k))
    (hd : d + s.current_func.param_and_local_types.length < 4294967296) :
    GetReturnDropKeepCount s
      = some (d + s.current_func.param_and_local_types.length, k)
    ∧ (∀ t, OnReturnExpr s = Except.ok t →
        t.istream = s.istream
          ++ dropKeepBytes (d + s.current_func.param_and_local_types.length) k
          ++ [IByte.op IOpcode.Return])
    ∧ (∀ t, EndFunctionBody s = Except.ok t →
        t.istream = s.istream
          ++ dropKeepBytes (d + s.current_func.param_and_local_types.length) k
          ++ [IByte.op IOpcode.Return]) := by
  have hpos : 0 < s.label_stack.length := List.length_pos.mpr hne
  have hret : GetReturnDropKeepCount s
      = some (d + s.current_func.param_and_local_types.length, k) := by
    unfold GetReturnDropKeepCount
    rw [wsub64_eq _ 1 (by omega) hlen]
    simp only [hbr]
    rw [mod32_eq _ hd]
  refine ⟨hret, ?_, ?_⟩
  · intro t ht
    unfold OnReturnExpr at ht
    simp only [hret] at ht
    simp only [Except.ok.injEq] at ht
    subst ht
    simp only [EmitOpcode, EmitData, EmitDropKeep_istream]
  · intro t ht
    unfold EndFunctionBody at ht
    simp only [GetReturnDropKeepCount_fixupTop, hret] at ht
    simp only [Except.ok.injEq] at ht
    subst ht
    simp only [PopLabel, EmitOpcode, EmitData, EmitDropKeep_istream, FixupTopLabel_istream]

/-- Witness for claim C3: a body with one i32 parameter and the value
stack holding only the return value. -/
theorem claim_C3_witness :
    GetReturnDropKeepCount localState = some (2, 0) := by
  have h := (claim_C3_theorem localState 1 0 (by decide) (by decide) (by decide) (by decide)).1
  simpa using h

/-- Claim C5 (type-checker push/pop effects modelled from the spec): for a
valid local index, the 4-byte operand after `GetLocal`/`SetLocal`/`TeeLocal`
is `type_stack.len + param_and_local_count − local_index`, with the stack
length sampled before the push for `get_local` and after the pop for
`set_local`. -/
theorem claim_C5_theorem (s : RState) (idx : Nat)
    (hidx : idx < s.current_func.param_and_local_types.length)
    (hlen : s.typechecker.type_stack.length
      + s.current_func.param_and_local_types.length < 4294967296) :
    ((OnGetLocalExpr s idx).map RState.istream
      = Except.ok (s.istream ++ [IByte.op IOpcode.GetLocal]
          ++ le32Bytes (s.typechecker.type_stack.length
               + s.current_func.param_and_local_types.length - idx)))
    ∧ (s.typechecker.type_stack ≠ [] →
        (OnSetLocalExpr s idx).map RState.istream
          = Except.ok (s.istream ++ [IByte.op IOpcode.SetLocal]
              ++ le32Bytes (s.typechecker.type_stack.length - 1
                   + s.current_func.param_and_local_types.length - idx)))
    ∧ ((OnTeeLocalExpr s idx).map RState.istream
        = Except.ok (s.istream ++ [IByte.op IOpcode.TeeLocal]
            ++ le32Bytes (s.typechecker.type_stack.length
                 + s.current_func.param_and_local_types.length - idx))) := by
  have hchk : CheckLocal s idx = Except.ok () := by
    unfold CheckLocal
    rw [if_neg (by omega)]
  refine ⟨?_, ?_, ?_⟩
  · simp only [OnGetLocalExpr, hchk, TranslateLocalIndex]
    rw [wsub64_eq (s.typechecker.type_stack.length
          + s.current_func.param_and_local_types.length) idx (by omega) (by omega),
        mod32_eq _ (by omega)]
    simp [EmitI32, EmitOpcode, EmitData, Except.map]
  · intro hne
    have hpos : 0 < s.typechecker.type_stack.length := List.length_pos.mpr hne
    simp only [OnSetLocalExpr, hchk, TranslateLocalIndex, tcOnSetLocal, List.length_dropLast]
    rw [wsub64_eq (s.typechecker.type_stack.length - 1
          + s.current_func.param_and_local_types.length) idx (by omega) (by omega),
        mod32_eq _ (by omega)]
    simp [EmitI32, EmitOpcode, EmitData, Except.map]
  · simp only [OnTeeLocalExpr, hchk, TranslateLocalIndex, tcOnTeeLocal]
    rw [wsub64_eq (s.typechecker.type_stack.length
          + s.current_func.param_and_local_types.length) idx (by omega) (by omega),
        mod32_eq _ (by omega)]
    simp [EmitI32, EmitOpcode, EmitData, Except.map]

/-- Witness for claim C5: `get_local 0` with one parameter and one stacked
value translates to operand 2. -/
theorem claim_C5_witness :
    (OnGetLocalExpr localState 0).map RState.istream
      = Except.ok (localState.istream ++ [IByte.op IOpcode.GetLocal] ++ le32Bytes 2) := by
  have h := (claim_C5_theorem localState 0 (by decide) (by decide)).1
  simpa using h

/-- Claim C6: `OnDataSegmentData` fails when the init value is not i32;
fails with `DataOutOfBounds` exactly when `address + size` exceeds the
memory's data length (equality accepted); and on success records a
deferred copy exactly when `size > 0`. -/
theorem claim_C6_theorem (s : RState) (memory : MemInst) (src_data : List Nat) (size : Nat)
    (hmem : s.memories[s.module_memory_index]? = some memory)
    (hval : s.init_expr_value.value < 4294967296) :
    (s.init_expr_value.type ≠ ValueType.i32 →
      OnDataSegmentData s src_data size = Except.error TranslateError.typeMismatch)
    ∧ (s.init_expr_value.type = ValueType.i32 →
        (OnDataSegmentData s src_data size = Except.error TranslateError.dataOutOfBounds
          ↔ memory.data.length < s.init_expr_value.value + size))
    ∧ (s.init_expr_value.type = ValueType.i32 →
        s.init_expr_value.value + size ≤ memory.data.length →
        OnDataSegmentData s src_data size
          = Except.ok { s with data_segment_infos := s.data_segment_infos
              ++ (if 0 < size then [⟨s.init_expr_value.value, src_data, size⟩] else []) }) := by
  have hvm : s.init_expr_value.value % 4294967296 = s.init_expr_value.value :=
    Nat.mod_eq_of_lt hval
  refine ⟨?_, ?_, ?_⟩
  · intro hty
    simp only [OnDataSegmentData, hmem]
    rw [if_pos hty]
  · intro hty
    simp only [OnDataSegmentData, hmem, hvm]
    rw [if_neg (by simp [hty])]
    by_cases hb : memory.data.length < s.init_expr_value.value + size
    · simp [hb]
    · rw [if_neg hb]
      by_cases hs : 0 < size
      · simp [hs, hb]
      · simp [hs, hb]
  · intro hty hle
    simp only [OnDataSegmentData, hmem, hvm]
    rw [if_neg (by simp [hty])]
    rw [if_neg (by omega)]
    by_cases hs : 0 < size
    · rw [if_pos hs]
      simp [hs]
    · rw [if_neg hs]
      simp [hs]

/-- Witness for claim C6: a segment of 2 bytes ending exactly at the
memory's length is accepted and recorded. -/
theorem claim_C6_witness :
    OnDataSegmentData dataSegState [7, 7] 2
      = Except.ok { dataSegState with data_segment_infos := dataSegState.data_segment_infos
          ++ (if 0 < 2 then [⟨dataSegState.init_expr_value.value, [7, 7], 2⟩] else []) } :=
  (claim_C6_theorem dataSegState ⟨⟨1, 1, true⟩, List.replicate 4 0⟩ [7, 7] 2
    (by decide) (by decide)).2.2 (by decide) (by decide)

/-- Claim C8: a `get_global` initializer fails exactly when the referenced
global is not an imported global or is mutable; on success the init value
becomes the referenced global's typed value. -/
theorem claim_C8_theorem (s : RState) (global_index : Nat)
    (hmap : global_index < s.global_index_mapping.length)
    (henv : TranslateGlobalIndexToEnv s global_index < s.globals.length) :
    (OnInitExprGetGlobalExpr s global_index = Except.error TranslateError.initGlobalNotImport
      ↔ s.num_global_imports ≤ global_index)
    ∧ (OnInitExprGetGlobalExpr s global_index = Except.error TranslateError.initGlobalMutable
      ↔ (global_index < s.num_global_imports
          ∧ (GetGlobalByModuleIndex s global_index).mutable_ = true))
    ∧ (∀ t, OnInitExprGetGlobalExpr s global_index = Except.ok t →
        t.init_expr_value = (GetGlobalByModuleIndex s global_index).typed_value)
    ∧ (global_index < s.num_global_imports →
        (GetGlobalByModuleIndex s global_index).mutable_ = false →
        OnInitExprGetGlobalExpr s global_index
          = Except.ok { s with
              init_expr_value := (GetGlobalByModuleIndex s global_index).typed_value }) := by
  refine ⟨?_, ?_, ?_, ?_⟩
  · unfold OnInitExprGetGlobalExpr
    by_cases h1 : s.num_global_imports ≤ global_index
    · simp [h1]
    · rw [if_neg h1]
      by_cases h2 : (GetGlobalByModuleIndex s global_index).mutable_
      · simp [h2, h1]
      · simp [h2, h1]
  · unfold OnInitExprGetGlobalExpr
    by_cases h1 : s.num_global_imports ≤ global_index
    · simp only [if_pos h1]
      simp
      omega
    · rw [if_neg h1]
      by_cases h2 : (GetGlobalByModuleIndex s global_index).mutable_
      · simp [h2, h1]
        omega
      · simp [h2, h1]
  · intro t ht
    unfold OnInitExprGetGlobalExpr at ht
    by_cases h1 : s.num_global_imports ≤ global_index
    · rw [if_pos h1] at ht
      exact absurd ht (by simp)
    · rw [if_neg h1] at ht
      by_cases h2 : (GetGlobalByModuleIndex s global_index).mutable_
      · rw [if_pos h2] at ht
        exact absurd ht (by simp)
      · rw [if_neg h2] at ht
        simp only [Except.ok.injEq] at ht
        subst ht
        rfl
  · intro h1 h2
    unfold OnInitExprGetGlobalExpr
    rw [if_neg (by omega)]
    rw [if_neg (by simp [h2])]

/-- Witness for claim C8: reading an imported immutable i32 global. -/
theorem claim_C8_witness :
    OnInitExprGetGlobalExpr globalState 0
      = Except.ok { globalState with
          init_expr_value := (GetGlobalByModuleIndex globalState 0).typed_value } :=
  (claim_C8_theorem globalState 0 (by decide) (by decide)).2.2.2 (by decide) (by decide)

/-- Claim C10: for every host import, the auto-export append result is
discarded: even when the host module already exports the field name, so
that `AppendExport` fails with a duplicate-export error, each of
`OnImportFunc`, `OnImportTable`, `OnImportMemory` and `OnImportGlobal`
still returns Ok, leaves the host module unchanged, and completes the
import. -/
theorem claim_C10_theorem (s : RState) (ii fi si : Nat) (imp : ImportRec)
    (el pl : Limits) (instT : Limits) (instM : MemInst)
    (gt : ValueType) (gm : Bool) (instG : Global) (env_sig : Nat)
    (hhost : s.is_host_import = true)
    (himp : s.imports[ii]? = some imp)
    (hdup : (s.host_import_module.export_bindings.find?
        (fun b => b.1 == imp.field_name)).isSome = true)
    (hsig : s.sig_index_mapping[si]? = some env_sig)
    (htab : s.module_table_index = kInvalidIndex)
    (hmem : s.module_memory_index = kInvalidIndex)
    (hlimT : CheckImportLimits el instT = Except.ok ())
    (hlimM : CheckImportLimits pl instM.page_limits = Except.ok ()) :
    (∀ kind item, AppendExport s.host_import_module kind item imp.field_name
        = Except.error TranslateError.duplicateExport)
    ∧ (OnImportFunc s ii fi si true).map
          (fun t => (t.num_func_imports, t.host_import_module))
        = Except.ok (s.num_func_imports + 1, s.host_import_module)
    ∧ (OnImportTable s ii el true instT).map
          (fun t => (t.module_table_index, t.host_import_module))
        = Except.ok (s.tables.length, s.host_import_module)
    ∧ (OnImportMemory s ii pl true instM).map
          (fun t => (t.module_memory_index, t.host_import_module))
        = Except.ok (s.memories.length, s.host_import_module)
    ∧ (OnImportGlobal s ii gt gm true instG).map
          (fun t => (t.num_global_imports, t.host_import_module))
        = Except.ok (s.num_global_imports + 1, s.host_import_module) := by
  have happ : ∀ kind item, AppendExport s.host_import_module kind item imp.field_name
      = Except.error TranslateError.duplicateExport := by
    intro kind item
    unfold AppendExport
    rw [if_pos hdup]
  refine ⟨happ, ?_, ?_, ?_, ?_⟩
  · simp only [OnImportFunc, himp, hsig, hhost, if_true, happ]
    simp [Except.map]
  · simp only [OnImportTable, himp, hhost, if_true, happ]
    rw [if_neg (by simp [htab])]
    simp only [hlimT]
    simp [Except.map, happ]
  · simp only [OnImportMemory, himp, hhost, if_true, happ]
    rw [if_neg (by simp [hmem])]
    simp only [hlimM]
    simp [Except.map, happ]
  · simp only [OnImportGlobal, himp, hhost, if_true, happ]
    simp [Except.map]

/-- Witness for claim C10: a host function import whose field name is
already exported by the host module. -/
theorem claim_C10_witness :
    (OnImportFunc hostDupState 0 0 0 true).map
        (fun t => (t.num_func_imports, t.host_import_module))
      = Except.ok (hostDupState.num_func_imports + 1, hostDupState.host_import_module) :=
  (claim_C10_theorem hostDupState 0 0 0
    ⟨"m", "f", ExternalKind.func, 0, ⟨0, 0, false⟩, ValueType.i32, false⟩
    ⟨0, 0, false⟩ ⟨0, 0, false⟩ ⟨0, 0, false⟩ ⟨⟨0, 0, false⟩, []⟩
    ValueType.i32 false ⟨⟨ValueType.i32, 0⟩, false⟩ 0
    (by decide) (by decide) (by decide) (by decide) rfl rfl
    rfl rfl).2.1

theorem PushLabel_fixupInv (s : RState) (off fix : Nat) (h : fixupInv s) :
    fixupInv (PushLabel s off fix) := by
  unfold fixupInv PushLabel at *
  simp only [List.length_append, List.length_cons, List.length_nil]
  omega

theorem PopLabel_fixupInv (s : RState) : fixupInv (PopLabel s) := by
  unfold fixupInv PopLabel
  simp only []
  split
  · simp only [List.length_take]
    omega
  · next h => omega

theorem FixupTopLabel_depth_fixups_length (s : RState) :
    (FixupTopLabel s).depth_fixups.length = s.depth_fixups.length := by
  simp only [FixupTopLabel]
  split
  · rfl
  · simp [List.length_set]

theorem FixupTopLabel_fixupInv (s : RState) (h : fixupInv s) :
    fixupInv (FixupTopLabel s) := by
  unfold fixupInv at *
  rw [FixupTopLabel_depth_fixups_length, FixupTopLabel_label_stack]
  exact h

theorem EmitBrOffset_fixupInv (s : RState) (depth offset : Nat) (h : fixupInv s)
    (hpre : offset = kInvalidIstreamOffset →
      (depth < s.label_stack.length ∧ s.label_stack.length < 18446744073709551616)) :
    fixupInv (EmitBrOffset s depth offset) := by
  unfold fixupInv at *
  simp only [EmitBrOffset, EmitI32, EmitData]
  by_cases ho : offset = kInvalidIstreamOffset
  · obtain ⟨h1, h2⟩ := hpre ho
    simp only [if_pos ho]
    rw [appendFixup_length]
    rw [wsub64_eq s.label_stack.length 1 (by omega) h2]
    rw [wsub64_eq (s.label_stack.length - 1) depth (by omega) (by omega)]
    omega
  · simp only [if_neg ho]
    exact h

theorem BeginFunctionBody_fixupInv (s : RState) (idx : Nat) (t : RState)
    (h : BeginFunctionBody s idx = Except.ok t) : fixupInv t := by
  unfold BeginFunctionBody at h
  split at h
  · exact absurd h (by simp)
  · split at h
    · exact absurd h (by simp)
    · exact absurd h (by simp)
    · split at h
      · exact absurd h (by simp)
      · simp only [Except.ok.injEq] at h
        subst h
        unfold fixupInv PushLabel
        simp

theorem EndFunctionBody_fixupInv (s : RState) (t : RState)
    (h : EndFunctionBody s = Except.ok t) : fixupInv t := by
  simp only [EndFunctionBody] at h
  split at h
  · exact absurd h (by simp)
  · simp only [Except.ok.injEq] at h
    subst h
    exact PopLabel_fixupInv _

theorem EmitFuncOffset_fixupInv (s : RState) (f : DefinedFunc) (fi : Nat) (t : RState)
    (hs : fixupInv s) (h : EmitFuncOffset s f fi = Except.ok t) : fixupInv t := by
  simp only [EmitFuncOffset] at h
  split at h
  · split at h
    · exact absurd h (by simp)
    · simp only [Except.ok.injEq] at h
      subst h
      unfold fixupInv EmitI32 EmitData at *
      simpa using hs
  · simp only [Except.ok.injEq] at h
    subst h
    unfold fixupInv EmitI32 EmitData at *
    simpa using hs

theorem OnCallExpr_fixupInv (s : RState) (idx : Nat) (t : RState) (hs : fixupInv s)
    (h : OnCallExpr s idx = Except.ok t) : fixupInv t := by
  simp only [OnCallExpr] at h
  split at h
  · exact absurd h (by simp)
  · split at h
    · exact absurd h (by simp)
    · split at h
      · simp only [Except.ok.injEq] at h
        subst h
        unfold fixupInv EmitI32 EmitOpcode EmitData at *
        simpa using hs
      · refine EmitFuncOffset_fixupInv _ _ _ _ ?_ h
        unfold fixupInv EmitOpcode EmitData at *
        simpa using hs

theorem stepF_fixupInv (s : RState) (e : FEvent) (hs : fixupInv s) (hp : eventPre s e) :
    fixupInv (stepF s e) := by
  cases e with
  | pushLabel off fix => exact PushLabel_fixupInv s off fix hs
  | popLabel => exact PopLabel_fixupInv s
  | fixupTop => exact FixupTopLabel_fixupInv s hs
  | brOffset depth off => exact EmitBrOffset_fixupInv s depth off hs hp
  | beginBody idx =>
      simp only [stepF]
      cases hb : BeginFunctionBody s idx with
      | ok t => exact BeginFunctionBody_fixupInv s idx t hb
      | error e2 => exact hs
  | endBody =>
      simp only [stepF]
      cases hb : EndFunctionBody s with
      | ok t => exact EndFunctionBody_fixupInv s t hb
      | error e2 => exact hs
  | callExpr idx =>
      simp only [stepF]
      cases hb : OnCallExpr s idx with
      | ok t => exact OnCallExpr_fixupInv s idx t hs hb
      | error e2 => exact hs

theorem runF_fixupInv (evs : List FEvent) :
    ∀ s : RState, fixupInv s → ValidRun s evs → fixupInv (runF s evs) := by
  induction evs with
  | nil => intro s hs _; exact hs
  | cons e evs ih =>
      intro s hs hv
      have h1 : fixupInv (stepF s e) := stepF_fixupInv s e hs hv.1
      have h2 := ih (stepF s e) h1 hv.2
      simpa [runF, List.foldl_cons] using h2

/-- Claim C1 (amended): on `BeginFunctionBody` for a defined function,
every pending `func_fixups[defined_index]` entry is patched with the
function's now-known entry offset, but the list is retained rather than
cleared; and after every valid event run ending with an empty label stack
(as on `EndModule` after balanced function bodies), `depth_fixups` is
empty at every label depth. -/
theorem claim_C1_theorem :
    (∀ (s : RState) (index env_index : Nat) (f : DefinedFunc),
      s.func_index_mapping[index]? = some env_index →
      s.funcs[env_index]? = some (Func.defined f) →
      s.num_func_imports ≤ index →
      index < 4294967296 →
      (BeginFunctionBody s index).map RState.patches
        = Except.ok (s.patches
            ++ (s.func_fixups.getD (index - s.num_func_imports) []).map
                (fun fx => (fx, s.istream_offset)))
      ∧ (BeginFunctionBody s index).map RState.func_fixups = Except.ok s.func_fixups)
    ∧ (∀ (s : RState) (evs : List FEvent),
        fixupInv s → ValidRun s evs → (runF s evs).label_stack = [] →
        (EndModule (runF s evs)).depth_fixups = []) := by
  constructor
  · intro s index env_index f hm hf hge hlt
    simp only [BeginFunctionBody, hm, hf]
    rw [if_neg (by omega)]
    rw [wsub32_eq index s.num_func_imports hge hlt]
    constructor
    · simp [Except.map, PushLabel]
    · simp [Except.map, PushLabel]
  · intro s evs hinv hvalid hempty
    have hfinal := runF_fixupInv evs s hinv hvalid
    unfold fixupInv at hfinal
    rw [hempty] at hfinal
    simp only [List.length_nil, Nat.le_zero, List.length_eq_zero] at hfinal
    simpa [EndModule] using hfinal

/-- Counterexample to claim C1 as stated: compile a call to the
forward-declared function 0 (recording a fixup at istream offset 1), then
begin its body at offset 5. The entry is patched (patch log `[(1, 5)]`)
but `func_fixups[0]` still holds the offset, and still does after
`EndModule` — the list is never cleared. -/
theorem claim_C1_counterexample :
    (runF oneFuncState [FEvent.callExpr 0, FEvent.beginBody 0]).func_fixups.getD 0 [] = [1]
    ∧ (runF oneFuncState [FEvent.callExpr 0, FEvent.beginBody 0]).patches = [(1, 5)]
    ∧ (EndModule (runF oneFuncState [FEvent.callExpr 0, FEvent.beginBody 0])).func_fixups.getD 0 []
        ≠ [] := by
  decide

/-- Witness for claim C1 (amended): a concrete begin-body retaining its
fixup list, and a concrete balanced run ending with empty depth fixups. -/
theorem claim_C1_witness :
    (BeginFunctionBody oneFuncState 0).map RState.func_fixups
        = Except.ok oneFuncState.func_fixups
    ∧ (EndModule (runF initState [FEvent.pushLabel 0 0, FEvent.popLabel])).depth_fixups = [] := by
  constructor
  · exact (claim_C1_theorem.1 oneFuncState 0 0 fwdFunc (by decide) (by decide)
      (by decide) (by decide)).2
  · exact claim_C1_theorem.2 initState [FEvent.pushLabel 0 0, FEvent.popLabel]
      (by unfold fixupInv; exact Nat.le_refl 0) (by exact ⟨trivial, trivial, trivial⟩) (by decide)

end WabtInterp
